import Mathlib

/-!
# Verification of the JLinkUpdate version subsystem

Shallow embedding, in Lean, of the version codec, the installed-version
probe and the system-info resolver of src/main.rs, together with theorems
settling the specified properties.

Conventions: Rust i32 values are modelled as Int (every value reached in
the theorems below is far from the i32 boundaries, and the overflow
checks performed by str::parse are modelled explicitly); a Rust panic is
modelled as returning none; the characters handled are the ASCII
characters the program manipulates.
-/

/-- The decimal digit character with code 48 + n. -/
def digitChar (n : Nat) : Char := Char.ofNat (48 + n)

/-- Fuel-driven decimal printer: the decimal digits of n, most
significant first (empty on n = 0). The fuel makes the recursion
structural; any fuel of at least n gives the same answer. -/
def toDecimalAux : Nat → Nat → List Char
  | 0, _ => []
  | f + 1, n => if n = 0 then [] else toDecimalAux f (n / 10) ++ [digitChar (n % 10)]

/-- Decimal representation of a natural number, as produced by Rust
to_string on a nonnegative integer. -/
def toDecimalNat (n : Nat) : List Char :=
  if n = 0 then ['0'] else toDecimalAux n n

/-- Rust version.to_string() on an i32: decimal digits, with a leading
minus sign when negative. -/
def rustIntToString (i : Int) : List Char :=
  if i < 0 then '-' :: toDecimalNat i.natAbs else toDecimalNat i.toNat

/-- Value of a list of decimal digit characters, most significant first
(the left-to-right accumulation performed by Rust str::parse). -/
def digitsToNat (l : List Char) : Nat :=
  l.foldl (fun acc c => acc * 10 + (c.toNat - 48)) 0

/-- Rust str::parse on a candidate digit string as i32: fails on an
empty string, on a non-digit character, and on overflow past i32::MAX;
otherwise returns the value. (Every string this program hands to parse
is free of sign characters.) -/
def parseNatDigits (l : List Char) : Option Nat :=
  if l.isEmpty then none
  else if l.all Char.isDigit then
    if digitsToNat l ≤ 2147483647 then some (digitsToNat l) else none
  else none

/-- One attempt of the regex [vV](\d+)\.(\d+)([a-z])? anchored at the
head of the list (src/main.rs line 85). The two digit groups are the
maximal digit runs — backtracking can never shorten them usefully,
because a shorter run would leave a digit where a dot, a letter or the
match end is required — and the optional final group greedily takes one
lowercase letter when present. Returns the three capture groups on
success. -/
def matchAt : List Char → Option (List Char × List Char × Option Char)
  | [] => none
  | c :: rest =>
    if c = 'v' ∨ c = 'V' then
      let ds := rest.takeWhile Char.isDigit
      if ds.isEmpty then none
      else
        match rest.dropWhile Char.isDigit with
        | '.' :: rest2 =>
          let ms := rest2.takeWhile Char.isDigit
          if ms.isEmpty then none
          else
            match rest2.dropWhile Char.isDigit with
            | c2 :: _ => if c2.isLower then some (ds, ms, some c2) else some (ds, ms, none)
            | [] => some (ds, ms, none)
        | _ => none
    else none

/-- Leftmost match of the version regex: the engine behind
Regex::captures tries every start position from the left and returns
the first (greedy) match. -/
def regexFind : List Char → Option (List Char × List Char × Option Char)
  | [] => none
  | c :: t =>
    match matchAt (c :: t) with
    | some r => some r
    | none => regexFind t

/-- version_string_to_number (src/main.rs lines 84 to 95): regex search,
parse of the two digit groups as i32, patch letter mapped to its
alphabet position (0 when the group is absent), and the result
major * 10000 + minor * 100 + patch. -/
def version_string_to_number (s : String) : Option Int :=
  match regexFind s.data with
  | none => none
  | some (ds, ms, pc) =>
    match parseNatDigits ds, parseNatDigits ms with
    | some major, some minor =>
      let patch : Nat :=
        match pc with
        | some c => c.toNat - 97 + 1
        | none => 0
      some ((major : Int) * 10000 + (minor : Int) * 100 + (patch : Int))
    | _, _ => none

/-- version_number_to_string (src/main.rs lines 69 to 82). The Rust code
slices the decimal string at byte indices 0..1, 1..3 and 3..; the
slicing panics when the string is shorter than 3 bytes (modelled as
none), and the final u8 addition of 97 and (patch - 1) cast to u8 panics
on overflow in a checked build (also modelled as none). A failing parse
of the tail (empty string or i32 overflow) falls back to 0 via
unwrap_or. -/
def version_number_to_string (version : Int) : Option String :=
  let s := rustIntToString version
  if s.length < 3 then none
  else
    let major := s.take 1
    let minor := (s.drop 1).take 2
    let patch : Nat := (parseNatDigits (s.drop 3)).getD 0
    if patch = 0 then some (String.mk (('V' :: major) ++ ('.' :: minor)))
    else
      let code := 97 + (patch - 1) % 256
      if code ≤ 255 then
        some (String.mk (('V' :: major) ++ ('.' :: minor) ++ [Char.ofNat code]))
      else none

/-- Abstract view of one file matched by a glob pattern: whether
Library::new succeeds on it, and the value returned by the exported
symbol JLINK_GetDLLVersion when the lookup resolves (none when the
lookup fails). -/
structure LibFile where
  loads : Bool
  symbol : Option Int

/-- The nested loops of get_current_installed_version (src/main.rs
lines 55 to 65) over the matched files in order: a file that fails to
load is skipped; at the first file that loads, the .ok()? on the symbol
lookup returns None from the whole function when the symbol is missing,
and otherwise the function returns the value of the call. -/
def probeFiles : List LibFile → Option Int
  | [] => none
  | f :: rest => if f.loads then f.symbol else probeFiles rest

/-- get_current_installed_version (src/main.rs lines 47 to 67), over an
abstract filesystem fs mapping a glob pattern to its matches in
enumeration order. Each supported OS has exactly one pattern in the
source; any other OS name returns None at once (line 52). -/
def get_current_installed_version (system : String) (fs : String → List LibFile) : Option Int :=
  if system = "Linux" then probeFiles (fs ("/opt/SEGGER/JLink*/libjlink*"))
  else if system = "Windows" then probeFiles (fs ("C:\\Program Files*\\SEGGER\\JLink*\\JLink*.dll"))
  else if system = "MacOSX" then probeFiles (fs ("/Applications/SEGGER/JLink*/libjlink*"))
  else none

/-- The command-line arguments (src/main.rs lines 12 to 37). -/
structure Args where
  install : Bool
  arch : String
  system : String
  package_type : String
  package_install_cmd : String

/-- Host facts read from the runtime environment: std::env::consts::OS
and std::env::consts::ARCH. (The compile-time test cfg!(target_arch =
"x86_64") on line 121 holds exactly when ARCH is "x86_64".) -/
structure HostEnv where
  os : String
  arch : String

/-- The record returned by get_system_info (src/main.rs lines 39 to 45). -/
structure SystemInfo where
  arch : String
  system : String
  package_type : String
  package_install_cmd : String

/-- Rust str::to_lowercase restricted to the ASCII strings this program
compares. -/
def asciiToLower (s : String) : String :=
  String.mk (s.data.map fun c =>
    if 65 ≤ c.toNat ∧ c.toNat ≤ 90 then Char.ofNat (c.toNat + 32) else c)

/-- The post-processing after the match in get_system_info (src/main.rs
lines 134 to 148): architecture synonym normalization on the lowercased
architecture, then the package-install-command override. -/
def finishSystemInfo (args : Args) (arch system pkg cmd : String) : SystemInfo :=
  let arch2 :=
    if asciiToLower arch = "aarch64" then "arm64"
    else if asciiToLower arch = "amd64" then "x86_64"
    else arch
  let cmd2 := if args.package_install_cmd ≠ "auto" then args.package_install_cmd else cmd
  ⟨arch2, system, pkg, cmd2⟩

/-- get_system_info (src/main.rs lines 97 to 150). The system value —
the override when it is not "auto", otherwise std::env::consts::OS — is
matched against the lowercase OS names "linux", "macos" and "windows";
anything else is the error "Unsupported system". Note the override
values accepted by the argument parser are "Linux", "MacOSX" and
"Windows". -/
def get_system_info (args : Args) (env : HostEnv) : Except String SystemInfo :=
  let system := if args.system = "auto" then env.os else args.system
  if system = "linux" then
    let arch := if args.arch = "auto" then env.arch else args.arch
    Except.ok (finishSystemInfo args arch ("Linux") ("deb") ("sudo dpkg -i"))
  else if system = "macos" then
    Except.ok (finishSystemInfo args ("universal") ("MacOSX") ("pkg")
      ("sudo installer -target / -pkg"))
  else if system = "windows" then
    let arch :=
      if args.arch = "auto" then (if env.arch = "x86_64" then "x86_64" else "") else args.arch
    Except.ok (finishSystemInfo args arch ("Windows") ("exe") (""))
  else Except.error ("Unsupported system")

/-- The character list of a version string in the narrow grammar: a
leading v or V mark, a single major digit, a dot, exactly two minor
digits, and an optional patch letter (p = 0 means no letter, and
1 ≤ p ≤ 26 means the p-th lowercase letter, of code 96 + p). -/
def mkVersionChars (v : Char) (m n p : Nat) : List Char :=
  v :: digitChar m :: '.' :: digitChar (n / 10) :: digitChar (n % 10) ::
    (if p = 0 then [] else [Char.ofNat (96 + p)])

/-- The version string built over mkVersionChars. -/
def mkVersionString (v : Char) (m n p : Nat) : String :=
  String.mk (mkVersionChars v m n p)

theorem toDecimalAux_zero (f : Nat) : toDecimalAux f 0 = [] := by
  cases f <;> simp [toDecimalAux]

theorem toDecimalAux_mono :
    ∀ f₁ f₂ n : Nat, n ≤ f₁ → f₁ ≤ f₂ → toDecimalAux f₁ n = toDecimalAux f₂ n := by
  intro f₁
  induction f₁ with
  | zero =>
    intro f₂ n hn _
    have h0 : n = 0 := by omega
    subst h0
    rw [toDecimalAux_zero, toDecimalAux_zero]
  | succ a ih =>
    intro f₂ n hn hf
    cases f₂ with
    | zero => omega
    | succ b =>
      simp only [toDecimalAux]
      by_cases h0 : n = 0
      · simp [h0]
      · rw [if_neg h0, if_neg h0, ih b (n / 10) (by omega) (by omega)]

theorem toDecimalNat_step (n : Nat) (h : 0 < n) :
    toDecimalNat n = (if n < 10 then [] else toDecimalNat (n / 10)) ++ [digitChar (n % 10)] := by
  obtain ⟨k, rfl⟩ : ∃ k, n = k + 1 := ⟨n - 1, by omega⟩
  unfold toDecimalNat
  rw [if_neg (by omega)]
  simp only [toDecimalAux, if_neg (by omega : ¬ k + 1 = 0)]
  by_cases h10 : k + 1 < 10
  · rw [if_pos h10]
    have hq : (k + 1) / 10 = 0 := by omega
    rw [hq, toDecimalAux_zero]
  · rw [if_neg h10, if_neg (by omega : ¬ (k + 1) / 10 = 0)]
    have := toDecimalAux_mono ((k + 1) / 10) k ((k + 1) / 10) le_rfl (by omega)
    rw [this]

theorem toDecimalNat_five (N : Nat) (h1 : 10000 ≤ N) (h2 : N ≤ 99999) :
    toDecimalNat N = [digitChar (N / 10000), digitChar (N / 1000 % 10),
      digitChar (N / 100 % 10), digitChar (N / 10 % 10), digitChar (N % 10)] := by
  rw [toDecimalNat_step N (by omega), if_neg (by omega)]
  rw [toDecimalNat_step (N / 10) (by omega), if_neg (by omega)]
  rw [toDecimalNat_step (N / 10 / 10) (by omega), if_neg (by omega)]
  rw [toDecimalNat_step (N / 10 / 10 / 10) (by omega), if_neg (by omega)]
  rw [toDecimalNat_step (N / 10 / 10 / 10 / 10) (by omega), if_pos (by omega)]
  have e1 : N / 10 / 10 / 10 / 10 % 10 = N / 10000 := by omega
  have e2 : N / 10 / 10 / 10 % 10 = N / 1000 % 10 := by omega
  have e3 : N / 10 / 10 % 10 = N / 100 % 10 := by omega
  rw [e1, e2, e3]
  simp

theorem digitChar_isDigit (m : Nat) (hm : m ≤ 9) : (digitChar m).isDigit = true := by
  interval_cases m <;> decide

theorem digitChar_toNat (m : Nat) (hm : m ≤ 9) : (digitChar m).toNat = 48 + m := by
  interval_cases m <;> decide

theorem letterChar_isLower (p : Nat) (h1 : 1 ≤ p) (h2 : p ≤ 26) :
    (Char.ofNat (96 + p)).isLower = true := by
  interval_cases p <;> decide

theorem letterChar_isDigit (p : Nat) (h1 : 1 ≤ p) (h2 : p ≤ 26) :
    (Char.ofNat (96 + p)).isDigit = false := by
  interval_cases p <;> decide

theorem letterChar_toNat (p : Nat) (h1 : 1 ≤ p) (h2 : p ≤ 26) :
    (Char.ofNat (96 + p)).toNat = 96 + p := by
  interval_cases p <;> decide

theorem parseNatDigits_one (m : Nat) (hm : m ≤ 9) : parseNatDigits [digitChar m] = some m := by
  have h1 := digitChar_isDigit m hm
  have h2 := digitChar_toNat m hm
  have hval : digitsToNat [digitChar m] = m := by
    simp only [digitsToNat, List.foldl_cons, List.foldl_nil, h2]
    omega
  unfold parseNatDigits
  rw [hval, if_neg (by simp), if_pos (by simp [h1]), if_pos (by omega)]

theorem parseNatDigits_two (n : Nat) (hn : n ≤ 99) :
    parseNatDigits [digitChar (n / 10), digitChar (n % 10)] = some n := by
  have h1 := digitChar_isDigit (n / 10) (by omega)
  have h2 := digitChar_isDigit (n % 10) (by omega)
  have h3 := digitChar_toNat (n / 10) (by omega)
  have h4 := digitChar_toNat (n % 10) (by omega)
  have hval : digitsToNat [digitChar (n / 10), digitChar (n % 10)] = n := by
    simp only [digitsToNat, List.foldl_cons, List.foldl_nil, h3, h4]
    omega
  unfold parseNatDigits
  rw [hval, if_neg (by simp), if_pos (by simp [h1, h2]), if_pos (by omega)]

theorem matchAt_mkVersionChars (v : Char) (m n p : Nat) (hv : v = 'v' ∨ v = 'V')
    (hm : m ≤ 9) (hn : n ≤ 99) (hp : p ≤ 26) :
    matchAt (mkVersionChars v m n p) =
      some ([digitChar m], [digitChar (n / 10), digitChar (n % 10)],
        if p = 0 then none else some (Char.ofNat (96 + p))) := by
  have d1 := digitChar_isDigit m hm
  have d2 := digitChar_isDigit (n / 10) (by omega)
  have d3 := digitChar_isDigit (n % 10) (by omega)
  have hdot : Char.isDigit '.' = false := by decide
  by_cases h0 : p = 0
  · subst h0
    simp only [mkVersionChars, if_pos rfl, matchAt, if_pos hv]
    simp [List.takeWhile_cons, List.dropWhile_cons, d1, d2, d3, hdot]
  · have hl := letterChar_isLower p (by omega) hp
    have hld := letterChar_isDigit p (by omega) hp
    simp only [mkVersionChars, if_neg h0, matchAt, if_pos hv]
    simp [List.takeWhile_cons, List.dropWhile_cons, d1, d2, d3, hdot, hl, hld]

theorem regexFind_cons (c : Char) (t : List Char) (r : List Char × List Char × Option Char)
    (h : matchAt (c :: t) = some r) : regexFind (c :: t) = some r := by
  simp [regexFind, h]

theorem decode_mkVersionString (v : Char) (m n p : Nat) (hv : v = 'v' ∨ v = 'V')
    (hm : m ≤ 9) (hn : n ≤ 99) (hp : p ≤ 26) :
    version_string_to_number (mkVersionString v m n p) =
      some ((m : Int) * 10000 + (n : Int) * 100 + (p : Int)) := by
  have hmatch := matchAt_mkVersionChars v m n p hv hm hn hp
  have hcons : mkVersionChars v m n p =
      v :: (digitChar m :: '.' :: digitChar (n / 10) :: digitChar (n % 10) ::
        (if p = 0 then [] else [Char.ofNat (96 + p)])) := rfl
  have hfind : regexFind (mkVersionChars v m n p) =
      some ([digitChar m], [digitChar (n / 10), digitChar (n % 10)],
        if p = 0 then none else some (Char.ofNat (96 + p))) := by
    rw [hcons]
    exact regexFind_cons _ _ _ (hcons ▸ hmatch)
  have hdata : (mkVersionString v m n p).data = mkVersionChars v m n p := rfl
  by_cases h0 : p = 0
  · subst h0
    rw [if_pos rfl] at hfind
    unfold version_string_to_number
    rw [hdata, hfind]
    dsimp only
    rw [parseNatDigits_one m hm, parseNatDigits_two n hn]
  · have hlt := letterChar_toNat p (by omega) hp
    rw [if_neg h0] at hfind
    unfold version_string_to_number
    rw [hdata, hfind]
    dsimp only
    rw [parseNatDigits_one m hm, parseNatDigits_two n hn]
    dsimp only
    rw [hlt]
    congr 1
    have : 96 + p - 97 + 1 = p := by omega
    rw [this]

theorem encode_mkVersionString (m n p : Nat) (hm1 : 1 ≤ m) (hm : m ≤ 9) (hn : n ≤ 99)
    (hp : p ≤ 26) :
    version_number_to_string ((m : Int) * 10000 + (n : Int) * 100 + (p : Int)) =
      some (mkVersionString 'V' m n p) := by
  have hcast : ((m : Int) * 10000 + (n : Int) * 100 + (p : Int)) =
      ((m * 10000 + n * 100 + p : Nat) : Int) := by push_cast; ring
  rw [hcast]
  set N := m * 10000 + n * 100 + p with hNdef
  have hneg : ¬ ((N : Int) < 0) := by omega
  have d1 : N / 10000 = m := by omega
  have d2 : N / 1000 % 10 = n / 10 := by omega
  have d3 : N / 100 % 10 = n % 10 := by omega
  have d4 : N / 10 % 10 = p / 10 := by omega
  have d5 : N % 10 = p % 10 := by omega
  simp only [version_number_to_string, rustIntToString, if_neg hneg, Int.toNat_natCast]
  rw [toDecimalNat_five N (by omega) (by omega), d1, d2, d3, d4, d5]
  simp only [List.length_cons, List.length_nil, List.take, List.drop]
  rw [if_neg (by omega)]
  rw [parseNatDigits_two p (by omega)]
  simp only [Option.getD_some]
  by_cases h0 : p = 0
  · rw [if_pos h0, h0]
    simp [mkVersionString, mkVersionChars]
  · rw [if_neg h0]
    have hc : 97 + (p - 1) % 256 = 96 + p := by omega
    rw [hc, if_pos (by omega)]
    simp [mkVersionString, mkVersionChars, h0]

theorem probeFiles_skip (pre : List LibFile) (f : LibFile) (post : List LibFile)
    (hpre : ∀ g ∈ pre, g.loads = false) (hf : f.loads = true) :
    probeFiles (pre ++ f :: post) = f.symbol := by
  induction pre with
  | nil => simp [probeFiles, hf]
  | cons g rest ih =>
    have hg : g.loads = false := hpre g (by simp)
    simp only [List.cons_append, probeFiles, hg, Bool.false_eq_true, if_false]
    exact ih (fun x hx => hpre x (by simp [hx]))

theorem probeFiles_none (l : List LibFile) (h : ∀ g ∈ l, g.loads = false) :
    probeFiles l = none := by
  induction l with
  | nil => rfl
  | cons g rest ih =>
    have hg : g.loads = false := h g (by simp)
    simp only [probeFiles, hg, Bool.false_eq_true, if_false]
    exact ih (fun x hx => h x (by simp [hx]))

/-- C1 counterexample: the round trip fails on grammar strings as soon as
the major is not a single nonzero digit or the minor is not written with
exactly two digits. V1.2 decodes to 10200 but re-encodes as V1.02, not
V1.2; V0.94 decodes to 9400 and re-encodes as V9.40; V10.94 decodes to
109400 and re-encodes with a garbage suffix character of code 240. -/
theorem C1_counterexample :
    (version_string_to_number ("V1.2") = some 10200 ∧
      version_number_to_string 10200 = some ("V1.02") ∧ ("V1.02" : String) ≠ "V1.2") ∧
    (version_string_to_number ("V0.94") = some 9400 ∧
      version_number_to_string 9400 = some ("V9.40")) ∧
    (version_string_to_number ("V10.94") = some 109400 ∧
      version_number_to_string 109400 = some (String.mk ("V1.09".data ++ [Char.ofNat 240]))) := by
  decide

/-- C1 (amended): for every version string whose major is a single digit
in 1..9, whose minor is written with exactly two digits, and whose patch
is in [0, 26], decoding with version_string_to_number and then encoding
the result with version_number_to_string yields the normalized form
(uppercase V, same major digit, same two minor digits, same patch
letter). -/
theorem C1_round_trip (v : Char) (m n p : Nat) (hv : v = 'v' ∨ v = 'V') (hm1 : 1 ≤ m)
    (hm : m ≤ 9) (hn : n ≤ 99) (hp : p ≤ 26) :
    (version_string_to_number (mkVersionString v m n p)).bind version_number_to_string =
      some (mkVersionString 'V' m n p) := by
  rw [decode_mkVersionString v m n p hv hm hn hp]
  dsimp only [Option.bind]
  exact encode_mkVersionString m n p hm1 hm hn hp

/-- C1 witness: the round trip at the concrete grammar string v7.94a. -/
theorem C1_round_trip_witness :
    (version_string_to_number ("v7.94a")).bind version_number_to_string = some ("V7.94a") := by
  have h := C1_round_trip 'v' 7 94 1 (Or.inl rfl) (by decide) (by decide) (by decide) (by decide)
  have e1 : mkVersionString 'v' 7 94 1 = "v7.94a" := by decide
  have e2 : mkVersionString 'V' 7 94 1 = "V7.94a" := by decide
  rw [e1, e2] at h
  exact h

/-- C2 counterexample: decoding V7.94aa does not fail; the unanchored
regex search matches the embedded V7.94a and returns 79401. -/
theorem C2_counterexample : version_string_to_number ("V7.94aa") = some 79401 := by
  decide

/-- C2 (amended): decode rejects banana and 7.94 (no leading v), but
accepts V7.94aa, whose leading V7.94a portion matches the unanchored
regex and yields 79401. -/
theorem C2_malformed_rejection :
    version_string_to_number ("banana") = none ∧
    version_string_to_number ("7.94") = none ∧
    version_string_to_number ("V7.94aa") = some 79401 := by
  decide

/-- C3 counterexample: at patch 27 the encoder does not fail; it returns
V7.94 followed by the non-letter character of code 123 (left brace). -/
theorem C3_counterexample :
    version_number_to_string 79427 = some ("V7.94\x7b") ∧ ('\x7b').isAlpha = false := by
  decide

/-- C3 (amended): for every five-digit VersionCode 79400 + p with patch
component p in [27, 99], version_number_to_string silently returns V7.94
followed by the non-letter character of code 96 + p instead of failing. -/
theorem C3_silent_nonletter_suffix (p : Nat) (h1 : p < 100) (h2 : 27 ≤ p) :
    version_number_to_string ((79400 : Int) + (p : Int)) =
      some (String.mk ('V' :: '7' :: '.' :: '9' :: '4' :: [Char.ofNat (96 + p)])) ∧
    (Char.ofNat (96 + p)).isAlpha = false := by
  revert h2 h1
  revert p
  decide

/-- C3 witness: the amended statement at patch 27. -/
theorem C3_silent_nonletter_suffix_witness :
    version_number_to_string 79427 =
      some (String.mk ('V' :: '7' :: '.' :: '9' :: '4' :: [Char.ofNat 123])) ∧
    (Char.ofNat 123).isAlpha = false :=
  C3_silent_nonletter_suffix 27 (by decide) (by decide)

/-- C8 counterexample: V7.123, whose minor has three digits, is not
rejected; it decodes to 70000 + 123 * 100 = 82300. -/
theorem C8_counterexample : version_string_to_number ("V7.123") = some 82300 := by
  decide

/-- C8 (amended): decode performs no width validation: a minor wider
than two digits and a major wider than one digit are both accepted and
folded into major * 10000 + minor * 100 + patch, producing overlapping
encodings — V7.123 and V8.23 both decode to 82300 — and V10.94 decodes
to 109400. -/
theorem C8_no_width_validation :
    version_string_to_number ("V7.123") = some 82300 ∧
    version_string_to_number ("V8.23") = some 82300 ∧
    version_string_to_number ("V10.94") = some 109400 := by
  decide

/-- C9: decoding is strictly monotonic across the patch increment from
V7.94 to V7.94a and the minor increment from V7.94a to V7.95. -/
theorem C9_monotonic :
    version_string_to_number ("V7.94") = some 79400 ∧
    version_string_to_number ("V7.94a") = some 79401 ∧
    version_string_to_number ("V7.95") = some 79500 ∧
    (79400 : Int) < 79401 ∧ (79401 : Int) < 79500 := by
  decide

theorem vnts_short_aux : ∀ k : Nat, k < 109 → version_number_to_string ((k : Int) - 9) = none := by
  decide

/-- C10: version_number_to_string is not total: on every integer whose
decimal representation is shorter than 3 characters — every integer in
[0, 99] and every integer in [-9, -1], together the interval [-9, 99] —
the byte-index slicing of the decimal string panics (modelled as none)
instead of returning a string. -/
theorem C10_short_input_panics (v : Int) (h1 : -9 ≤ v) (h2 : v ≤ 99) :
    version_number_to_string v = none := by
  have hk : (((v + 9).toNat : Int) - 9) = v := by omega
  have h := vnts_short_aux (v + 9).toNat (by omega)
  rwa [hk] at h

/-- C10 witness: the panic at 5 and at -3. -/
theorem C10_short_input_panics_witness :
    version_number_to_string 5 = none ∧ version_number_to_string (-3) = none :=
  ⟨C10_short_input_panics 5 (by decide) (by decide),
    C10_short_input_panics (-3) (by decide) (by decide)⟩

/-- C4 counterexample: on a filesystem where the first Linux match loads
but lacks the symbol and a later match would succeed with 79400, the
probe returns none — the .ok()? early-returns from the whole function
instead of continuing to the later match. -/
theorem C4_counterexample :
    get_current_installed_version ("Linux")
      (fun _ => [⟨true, none⟩, ⟨true, some 79400⟩]) = none := by
  decide

/-- C4 (amended): the probe skips matches that fail to load, and at the
first match that loads it returns exactly the result of the symbol
lookup: Found(value) when the symbol resolves, and NotFound immediately
— without trying any later match — when the symbol is missing. When
every match fails to load, it returns NotFound. -/
theorem C4_probe_first_loaded :
    (∀ (fs : String → List LibFile) (pre post : List LibFile) (f : LibFile),
        fs ("/opt/SEGGER/JLink*/libjlink*") = pre ++ f :: post →
        (∀ g ∈ pre, g.loads = false) → f.loads = true →
        get_current_installed_version ("Linux") fs = f.symbol) ∧
    (∀ fs : String → List LibFile,
        (∀ g ∈ fs ("/opt/SEGGER/JLink*/libjlink*"), g.loads = false) →
        get_current_installed_version ("Linux") fs = none) := by
  constructor
  · intro fs pre post f hfs hpre hf
    have hstep : get_current_installed_version ("Linux") fs =
        probeFiles (fs ("/opt/SEGGER/JLink*/libjlink*")) := rfl
    rw [hstep, hfs]
    exact probeFiles_skip pre f post hpre hf
  · intro fs h
    have hstep : get_current_installed_version ("Linux") fs =
        probeFiles (fs ("/opt/SEGGER/JLink*/libjlink*")) := rfl
    rw [hstep]
    exact probeFiles_none _ h

/-- C4 witness: a load failure is skipped and the next loading match is
returned; a filesystem whose matches all fail to load yields none. -/
theorem C4_probe_first_loaded_witness :
    get_current_installed_version ("Linux")
      (fun _ => [⟨false, none⟩, ⟨true, some 79400⟩]) = some 79400 ∧
    get_current_installed_version ("Linux") (fun _ => [⟨false, some 5⟩]) = none := by
  constructor
  · exact C4_probe_first_loaded.1 (fun _ => [⟨false, none⟩, ⟨true, some 79400⟩])
      [⟨false, none⟩] [] ⟨true, some 79400⟩ rfl (by simp) rfl
  · exact C4_probe_first_loaded.2 (fun _ => [⟨false, some 5⟩]) (by simp)

/-- C5: when every glob pattern has no filesystem match the probe
returns none for every osFamily, and for an osFamily outside Linux,
Windows, MacOSX it returns none on any filesystem; in this model the
return type Option Int admits no error outcome at all. -/
theorem C5_probe_absence :
    (∀ (system : String) (fs : String → List LibFile),
        (∀ pat : String, fs pat = []) →
        get_current_installed_version system fs = none) ∧
    (∀ (system : String) (fs : String → List LibFile),
        system ≠ "Linux" → system ≠ "Windows" → system ≠ "MacOSX" →
        get_current_installed_version system fs = none) := by
  constructor
  · intro system fs h
    simp [get_current_installed_version, h, probeFiles]
  · intro system fs h1 h2 h3
    unfold get_current_installed_version
    rw [if_neg h1, if_neg h2, if_neg h3]

/-- C5 witness: the empty filesystem on Linux, and an unsupported
osFamily with a loadable library present. -/
theorem C5_probe_absence_witness :
    get_current_installed_version ("Linux") (fun _ => []) = none ∧
    get_current_installed_version ("BeOS") (fun _ => [⟨true, some 79400⟩]) = none := by
  constructor
  · exact C5_probe_absence.1 ("Linux") (fun _ => []) (fun _ => rfl)
  · exact C5_probe_absence.2 ("BeOS") (fun _ => [⟨true, some 79400⟩])
      (by decide) (by decide) (by decide)

/-- C6: evaluation at the failing input. With the explicit override
system = Linux (one of the three values the argument parser accepts),
get_system_info returns the error Unsupported system — the match
compares the override against the lowercase names produced by
std::env::consts::OS — for both the aarch64 and the amd64 overrides,
instead of succeeding with the normalized architecture. The intended
normalization is reachable only through system = auto on a linux host. -/
theorem C6_explicit_system_rejected :
    get_system_info ⟨false, "aarch64", "Linux", "auto", "auto"⟩ ⟨"linux", "aarch64"⟩ =
      Except.error ("Unsupported system") ∧
    get_system_info ⟨false, "amd64", "Linux", "auto", "auto"⟩ ⟨"linux", "x86_64"⟩ =
      Except.error ("Unsupported system") ∧
    get_system_info ⟨false, "aarch64", "auto", "auto", "auto"⟩ ⟨"linux", "aarch64"⟩ =
      Except.ok ⟨"arm64", "Linux", "deb", "sudo dpkg -i"⟩ ∧
    get_system_info ⟨false, "amd64", "auto", "auto", "auto"⟩ ⟨"linux", "x86_64"⟩ =
      Except.ok ⟨"x86_64", "Linux", "deb", "sudo dpkg -i"⟩ := by
  refine ⟨rfl, rfl, rfl, rfl⟩

/-- C7: evaluation at the failing input. With the explicit override
package_type = rpm on a linux host, get_system_info returns the
OS-table default deb: the package_type argument is never consulted. -/
theorem C7_package_type_ignored :
    get_system_info ⟨false, "auto", "auto", "rpm", "auto"⟩ ⟨"linux", "x86_64"⟩ =
      Except.ok ⟨"x86_64", "Linux", "deb", "sudo dpkg -i"⟩ ∧
    ("deb" : String) ≠ "rpm" := by
  exact ⟨rfl, by decide⟩
